import Mathlib

/-!
Verification of the Vigenère cipher implementation in
`src/main/python/Vigenere.py` (HogwartsEncriptado).

The Python module is embedded shallowly over `List Char`:
* strings become `List Char`;
* Python exceptions (`ValueError`, `TypeError`) become an explicit
  `Except PyErr` result;
* `str.upper` is modelled per character by `Char.toUpper` (the ASCII case
  mapping, which is all the A-Z claims depend on);
* `str.strip()` is modelled over the ASCII whitespace characters.
All function names follow the source (`limpiar_texto`, `validar_datos`,
`ajustar_clave`, `cifrar_vigenere`, `descifrar_vigenere`, ...).
-/

namespace Vigenere

/-- `MINIMO_CLAVE = 3`: minimum number of letters of a normalized key. -/
def MINIMO_CLAVE : Nat := 3

/-- `CARACTERES_INVISIBLES`: the zero-width / BOM characters rejected in keys
(U+200B, U+200C, U+200D, U+2060, U+FEFF). -/
def CARACTERES_INVISIBLES : List Char :=
  [Char.ofNat 0x200B, Char.ofNat 0x200C, Char.ofNat 0x200D,
   Char.ofNat 0x2060, Char.ofNat 0xFEFF]

/-- `string.ascii_uppercase`: the 26 characters A-Z. -/
def ascii_uppercase : List Char := "ABCDEFGHIJKLMNOPQRSTUVWXYZ".data

/-- The ASCII whitespace characters stripped by Python `str.strip()`
(space, tab, newline, vertical tab, form feed, carriage return). -/
def PY_WHITESPACE : List Char :=
  [' ', Char.ofNat 9, Char.ofNat 10, Char.ofNat 11, Char.ofNat 12, Char.ofNat 13]

/-- Per-character model of Python `str.upper`: ASCII a-z map to A-Z, other
characters are left unchanged. -/
def pyUpper (c : Char) : Char := c.toUpper

/-- Python `s.upper()` applied to a whole string. -/
def pyUpperStr (s : List Char) : List Char := s.map pyUpper

/-- Python `s.strip()`: remove leading and trailing whitespace. -/
def pyStrip (s : List Char) : List Char :=
  ((s.dropWhile (fun c => decide (c ∈ PY_WHITESPACE))).reverse.dropWhile
    (fun c => decide (c ∈ PY_WHITESPACE))).reverse

/-- `limpiar_texto`: uppercase the text and keep only the characters in
`string.ascii_uppercase`. -/
def limpiar_texto (texto : List Char) : List Char :=
  (pyUpperStr texto).filter (fun c => decide (c ∈ ascii_uppercase))

/-- `normalizar_clave`: uppercase the key and keep only A-Z (same
computation as `limpiar_texto`). -/
def normalizar_clave (clave : List Char) : List Char :=
  (pyUpperStr clave).filter (fun c => decide (c ∈ ascii_uppercase))

/-- Lowercase hexadecimal digit. -/
def hexDigitLower (n : Nat) : Char :=
  if n < 10 then Char.ofNat (48 + n) else Char.ofNat (87 + n)

/-- Four lowercase hexadecimal digits of a codepoint below 0x10000. -/
def hex4Lower (n : Nat) : List Char :=
  [hexDigitLower (n / 4096 % 16), hexDigitLower (n / 256 % 16),
   hexDigitLower (n / 16 % 16), hexDigitLower (n % 16)]

/-- Uppercase hexadecimal digit. -/
def hexDigitUpper (n : Nat) : Char :=
  if n < 10 then Char.ofNat (48 + n) else Char.ofNat (55 + n)

/-- Four uppercase hexadecimal digits, as produced by Python `{:04X}` for a
codepoint below 0x10000. -/
def hex4Upper (n : Nat) : List Char :=
  [hexDigitUpper (n / 4096 % 16), hexDigitUpper (n / 256 % 16),
   hexDigitUpper (n / 16 % 16), hexDigitUpper (n % 16)]

/-- Python `repr(c)` for the invisible characters: all five are
non-printable format characters, so `repr` yields the eight-character
string consisting of a quote, the escape `\uxxxx` in lowercase hex, and a
closing quote. -/
def pyRepr (c : Char) : List Char :=
  [Char.ofNat 39, Char.ofNat 92, 'u'] ++ hex4Lower c.toNat ++ [Char.ofNat 39]

/-- `detectar_invisibles`: collect `repr(c)` for every character of the
string that belongs to `CARACTERES_INVISIBLES` (the source loops and
appends; this is the same as filter-then-map). -/
def detectar_invisibles (cadena : List Char) : List (List Char) :=
  (cadena.filter (fun c => decide (c ∈ CARACTERES_INVISIBLES))).map pyRepr

/-- Python `ord(s)`: the codepoint when `s` has exactly one character,
otherwise a `TypeError` (modelled as `none`). -/
def pyOrd (s : List Char) : Option Nat :=
  match s with
  | [c] => some c.toNat
  | _ => none

/-- `", ".join(f"U+{ord(c):04X}" for c in invisibles)`: `none` when some
`ord` raises `TypeError` (which happens on every `repr` string, since they
have eight characters). -/
def codigosDe (invisibles : List (List Char)) : Option (List Char) :=
  (invisibles.mapM (fun s => (pyOrd s).map (fun n => 'U' :: '+' :: hex4Upper n))).map
    (fun l => List.intercalate ", ".data l)

/-- A Python exception escaping the cipher functions. -/
inductive PyErr where
  | typeError
  | valueError (mensaje : List Char)
deriving DecidableEq

instance {ε α : Type} [DecidableEq ε] [DecidableEq α] : DecidableEq (Except ε α) :=
  fun a b =>
    match a, b with
    | .ok a, .ok b => decidable_of_iff (a = b) (by simp)
    | .error a, .error b => decidable_of_iff (a = b) (by simp)
    | .ok _, .error _ => isFalse (by simp)
    | .error _, .ok _ => isFalse (by simp)

/-- Message of validation check 1 (empty or whitespace-only key); also the
message of the defensive `ValueError` in `ajustar_clave`. -/
def mensajeClaveVacia : List Char := "La clave no puede estar vacía.".data

/-- Message of validation check 2 (invisible characters), parametrized by
the formatted codepoint list. -/
def mensajeInvisibles (codigos : List Char) : List Char :=
  "⚠️ La clave contiene caracteres invisibles o ilegales (".data ++ codigos ++
    "). Revísala y vuelve a introducirla.".data

/-- Message of validation check 3 (key with no A-Z letters). -/
def mensajeClaveSinLetras : List Char :=
  "La clave debe contener al menos una letra A-Z.".data

/-- Message of validation check 4 (key shorter than `MINIMO_CLAVE`). -/
def mensajeClaveCorta : List Char :=
  "La clave debe tener al menos ".data ++ (toString MINIMO_CLAVE).data ++
    " letras.".data

/-- Message of validation check 5 (raw key differs from its normalization). -/
def mensajeClaveInvalida (clave clave_normalizada : List Char) : List Char :=
  "⚠️ La clave contiene caracteres no válidos (solo se permiten letras A-Z).\n".data ++
    "Clave introducida: ".data ++ clave ++ "\n".data ++
    "Parte válida de la clave sería: ".data ++ clave_normalizada

/-- Message of validation check 6 (empty or whitespace-only text). -/
def mensajeTextoVacio : List Char := "❌ El texto no puede estar vacío.".data

/-- Message of validation check 7 (text with no A-Z letters). -/
def mensajeTextoSinLetras : List Char :=
  "El texto debe contener al menos una letra A-Z.".data

/-- `validar_datos`: validate text and key, returning `(valido, mensaje)`.
When the key contains invisible characters, the source computes
`f"U+{ord(c):04X}"` over the `repr` strings returned by
`detectar_invisibles`, so `ord` raises a `TypeError` (the `.error` branch
of the `match`). -/
def validar_datos (texto clave : List Char) : Except PyErr (Bool × List Char) :=
  if clave = [] ∨ pyStrip clave = [] then
    .ok (false, mensajeClaveVacia)
  else
    let invisibles := detectar_invisibles clave
    if invisibles ≠ [] then
      match codigosDe invisibles with
      | none => .error .typeError
      | some codigos => .ok (false, mensajeInvisibles codigos)
    else
      let clave_normalizada := normalizar_clave clave
      if clave_normalizada = [] then
        .ok (false, mensajeClaveSinLetras)
      else if clave_normalizada.length < MINIMO_CLAVE then
        .ok (false, mensajeClaveCorta)
      else if clave_normalizada ≠ pyUpperStr clave then
        .ok (false, mensajeClaveInvalida clave clave_normalizada)
      else if texto = [] ∨ pyStrip texto = [] then
        .ok (false, mensajeTextoVacio)
      else if limpiar_texto texto = [] then
        .ok (false, mensajeTextoSinLetras)
      else
        .ok (true, [])

/-- `ajustar_clave`: normalize the key, fail with `ValueError` when nothing
remains, otherwise repeat it `len(texto) // len(clave) + 1` times and cut
to the length of the text. -/
def ajustar_clave (texto clave : List Char) : Except PyErr (List Char) :=
  let clave := normalizar_clave clave
  if clave = [] then .error (.valueError mensajeClaveVacia)
  else
    let repeticiones := texto.length / clave.length + 1
    .ok (((List.replicate repeticiones clave).flatten).take texto.length)

/-- One position of the Vigenère forward transform:
`chr((ord(t) - ord('A') + ord(k) - ord('A')) % 26 + ord('A'))`. -/
def cifrar_char (t k : Char) : Char :=
  let nt : Int := (t.toNat : Int) - ('A'.toNat : Int)
  let nk : Int := (k.toNat : Int) - ('A'.toNat : Int)
  let c : Int := (nt + nk) % 26
  Char.ofNat (c + ('A'.toNat : Int)).toNat

/-- One position of the Vigenère inverse transform:
`chr((ord(c) - ord('A') - (ord(k) - ord('A'))) % 26 + ord('A'))`. -/
def descifrar_char (c k : Char) : Char :=
  let nc : Int := (c.toNat : Int) - ('A'.toNat : Int)
  let nk : Int := (k.toNat : Int) - ('A'.toNat : Int)
  let p : Int := (nc - nk) % 26
  Char.ofNat (p + ('A'.toNat : Int)).toNat

/-- `cifrar_vigenere`: validate, raise `ValueError(mensaje)` when invalid,
otherwise clean the text, expand the key and apply the forward transform
position by position. -/
def cifrar_vigenere (texto clave : List Char) : Except PyErr (List Char) :=
  match validar_datos texto clave with
  | .error e => .error e
  | .ok (valido, mensaje) =>
    if valido then
      let texto_limpio := limpiar_texto texto
      match ajustar_clave texto_limpio clave with
      | .error e => .error e
      | .ok clave_ajustada => .ok (List.zipWith cifrar_char texto_limpio clave_ajustada)
    else .error (.valueError mensaje)

/-- `descifrar_vigenere`: validate, raise `ValueError(mensaje)` when
invalid, otherwise clean the ciphertext, expand the key and apply the
inverse transform position by position. -/
def descifrar_vigenere (texto_cifrado clave : List Char) : Except PyErr (List Char) :=
  match validar_datos texto_cifrado clave with
  | .error e => .error e
  | .ok (valido, mensaje) =>
    if valido then
      let texto_limpio := limpiar_texto texto_cifrado
      match ajustar_clave texto_limpio clave with
      | .error e => .error e
      | .ok clave_ajustada => .ok (List.zipWith descifrar_char texto_limpio clave_ajustada)
    else .error (.valueError mensaje)

/-- Condition of the non-fatal warning at the end of `descifrar_vigenere`:
true when the decrypted result contains no A-Z character
(`not any(ch in string.ascii_uppercase for ch in texto_descifrado)`). -/
def aviso_posible_clave_incorrecta (texto_descifrado : List Char) : Bool :=
  !texto_descifrado.any (fun ch => decide (ch ∈ ascii_uppercase))

/-! ### Character-level facts -/

theorem mem_ascii_of_mem_limpiar {c : Char} {s : List Char} (h : c ∈ limpiar_texto s) :
    c ∈ ascii_uppercase := by
  have := (List.mem_filter.mp h).2
  exact of_decide_eq_true this

theorem mem_ascii_of_mem_normalizar {c : Char} {s : List Char} (h : c ∈ normalizar_clave s) :
    c ∈ ascii_uppercase := by
  have := (List.mem_filter.mp h).2
  exact of_decide_eq_true this

theorem pyUpper_eq_self_of_mem_ascii : ∀ c ∈ ascii_uppercase, pyUpper c = c := by decide

theorem ascii_not_whitespace : ∀ c ∈ ascii_uppercase, c ∉ PY_WHITESPACE := by decide

theorem ascii_not_invisible : ∀ c ∈ ascii_uppercase, c ∉ CARACTERES_INVISIBLES := by decide

theorem cifrar_char_mem_ascii :
    ∀ t ∈ ascii_uppercase, ∀ k ∈ ascii_uppercase, cifrar_char t k ∈ ascii_uppercase := by decide

theorem descifrar_char_mem_ascii :
    ∀ c ∈ ascii_uppercase, ∀ k ∈ ascii_uppercase, descifrar_char c k ∈ ascii_uppercase := by
  decide

theorem descifrar_cifrar_char :
    ∀ t ∈ ascii_uppercase, ∀ k ∈ ascii_uppercase, descifrar_char (cifrar_char t k) k = t := by
  decide

/-! ### String-level facts -/

theorem limpiar_eq_self {s : List Char} (h : ∀ c ∈ s, c ∈ ascii_uppercase) :
    limpiar_texto s = s := by
  induction s with
  | nil => rfl
  | cons a s ih =>
    have ha : a ∈ ascii_uppercase := h a (by simp)
    have hs : ∀ c ∈ s, c ∈ ascii_uppercase := fun c hc => h c (by simp [hc])
    simp only [limpiar_texto, pyUpperStr, List.map_cons, List.filter_cons,
      pyUpper_eq_self_of_mem_ascii a ha, decide_eq_true ha, if_true]
    exact congrArg (a :: ·) (ih hs)

theorem dropWhile_eq_self_of_false {p : Char → Bool} {l : List Char}
    (h : ∀ c ∈ l, p c = false) : List.dropWhile p l = l := by
  cases l with
  | nil => rfl
  | cons a l => simp [List.dropWhile_cons, h a (by simp)]

theorem pyStrip_eq_self {s : List Char} (h : ∀ c ∈ s, c ∉ PY_WHITESPACE) :
    pyStrip s = s := by
  have hfalse : ∀ c ∈ s, decide (c ∈ PY_WHITESPACE) = false :=
    fun c hc => decide_eq_false (h c hc)
  unfold pyStrip
  rw [dropWhile_eq_self_of_false hfalse,
    dropWhile_eq_self_of_false (fun c hc => hfalse c (List.mem_reverse.mp hc)),
    List.reverse_reverse]

theorem detectar_invisibles_eq_nil {s : List Char}
    (h : ∀ c ∈ s, c ∉ CARACTERES_INVISIBLES) : detectar_invisibles s = [] := by
  unfold detectar_invisibles
  rw [List.filter_eq_nil_iff.mpr (fun c hc => by simpa using h c hc)]
  rfl

/-! ### zipWith facts -/

theorem exists_of_mem_zipWith {f : Char → Char → Char} {as bs : List Char} {c : Char}
    (h : c ∈ List.zipWith f as bs) : ∃ a ∈ as, ∃ b ∈ bs, c = f a b := by
  induction as generalizing bs with
  | nil => simp at h
  | cons a as ih =>
    cases bs with
    | nil => simp at h
    | cons b bs =>
      simp only [List.zipWith_cons_cons, List.mem_cons] at h
      rcases h with h | h
      · exact ⟨a, by simp, b, by simp, h⟩
      · obtain ⟨x, hx, y, hy, rfl⟩ := ih h
        exact ⟨x, by simp [hx], y, by simp [hy], rfl⟩

theorem zipWith_descifrar_cifrar {as bs : List Char} (hlen : as.length ≤ bs.length)
    (ha : ∀ a ∈ as, a ∈ ascii_uppercase) (hb : ∀ b ∈ bs, b ∈ ascii_uppercase) :
    List.zipWith descifrar_char (List.zipWith cifrar_char as bs) bs = as := by
  induction as generalizing bs with
  | nil => simp
  | cons a as ih =>
    cases bs with
    | nil => simp at hlen
    | cons b bs =>
      simp only [List.zipWith_cons_cons]
      rw [descifrar_cifrar_char a (ha a (by simp)) b (hb b (by simp))]
      exact congrArg (a :: ·)
        (ih (by simpa using hlen) (fun x hx => ha x (by simp [hx]))
          (fun x hx => hb x (by simp [hx])))

/-! ### Key expansion facts -/

theorem lt_div_succ_mul (m k : Nat) (hk : k ≠ 0) : m < (m / k + 1) * k := by
  have h1 := Nat.div_add_mod m k
  have h2 := Nat.mod_lt m (Nat.pos_of_ne_zero hk)
  rw [Nat.mul_comm (m / k + 1) k, Nat.mul_succ]
  omega

theorem length_flatten_replicate (n : Nat) (l : List Char) :
    ((List.replicate n l).flatten).length = n * l.length := by
  induction n with
  | zero => simp
  | succ n ih =>
    rw [List.replicate_succ, List.flatten_cons, List.length_append, ih, Nat.succ_mul]
    omega

theorem getElem?_flatten_replicate {l : List Char} (n i : Nat)
    (hi : i < n * l.length) :
    ((List.replicate n l).flatten)[i]? = l[i % l.length]? := by
  induction n generalizing i with
  | zero => simp at hi
  | succ n ih =>
    rw [List.replicate_succ, List.flatten_cons]
    by_cases hi2 : i < l.length
    · rw [List.getElem?_append_left hi2, Nat.mod_eq_of_lt hi2]
    · push_neg at hi2
      rw [List.getElem?_append_right hi2]
      have hi3 : i - l.length < n * l.length := by
        rw [Nat.succ_mul] at hi
        obtain ⟨M, hM⟩ : ∃ M, n * l.length = M := ⟨_, rfl⟩
        rw [hM] at hi ⊢
        omega
      rw [ih (i - l.length) hi3]
      have hmod : (i - l.length) % l.length = i % l.length := by
        conv_rhs => rw [← Nat.sub_add_cancel hi2]
        rw [Nat.add_mod_right]
      rw [hmod]

theorem ajustar_spec {texto clave : List Char} (h : normalizar_clave clave ≠ []) :
    ∃ ka, ajustar_clave texto clave = .ok ka ∧ ka.length = texto.length ∧
      (∀ b ∈ ka, b ∈ ascii_uppercase) ∧
      ∀ i, i < texto.length →
        ka[i]? = (normalizar_clave clave)[i % (normalizar_clave clave).length]? := by
  have hL : (normalizar_clave clave).length ≠ 0 :=
    fun h0 => h (List.length_eq_zero.mp h0)
  have hlt := lt_div_succ_mul texto.length (normalizar_clave clave).length hL
  refine ⟨((List.replicate (texto.length / (normalizar_clave clave).length + 1)
      (normalizar_clave clave)).flatten).take texto.length, ?_, ?_, ?_, ?_⟩
  · simp [ajustar_clave, h]
  · rw [List.length_take, length_flatten_replicate]
    exact Nat.min_eq_left (Nat.le_of_lt hlt)
  · intro b hb
    have hb2 := List.take_subset _ _ hb
    obtain ⟨l, hl, hbl⟩ := List.mem_flatten.mp hb2
    rw [List.eq_of_mem_replicate hl] at hbl
    exact mem_ascii_of_mem_normalizar hbl
  · intro i hi
    rw [List.getElem?_take, if_pos hi]
    exact getElem?_flatten_replicate _ i (lt_of_lt_of_le hi (Nat.le_of_lt hlt))

theorem ajustar_congr_length {texto₁ texto₂ clave : List Char}
    (h : texto₁.length = texto₂.length) :
    ajustar_clave texto₁ clave = ajustar_clave texto₂ clave := by
  unfold ajustar_clave
  rw [h]

/-! ### Characterization of `validar_datos` -/

/-- The conjunction of the seven validation conditions of `validar_datos`. -/
def ValidOk (texto clave : List Char) : Prop :=
  ¬(clave = [] ∨ pyStrip clave = []) ∧
  detectar_invisibles clave = [] ∧
  normalizar_clave clave ≠ [] ∧
  ¬((normalizar_clave clave).length < MINIMO_CLAVE) ∧
  normalizar_clave clave = pyUpperStr clave ∧
  ¬(texto = [] ∨ pyStrip texto = []) ∧
  limpiar_texto texto ≠ []

theorem validar_eq_ok_true_iff (texto clave m : List Char) :
    validar_datos texto clave = .ok (true, m) ↔ m = [] ∧ ValidOk texto clave := by
  constructor
  · intro h
    simp only [validar_datos] at h
    split_ifs at h with h1 h2 h3 h4 h5 h6 h7
    · simp at h
    · rcases hc : codigosDe (detectar_invisibles clave) with _ | c <;> rw [hc] at h <;>
        simp at h
    · simp at h
    · simp at h
    · simp at h
    · simp at h
    · simp at h
    · simp only [Except.ok.injEq, Prod.mk.injEq, true_and] at h
      exact ⟨h.symm, h1, not_not.mp h2, h3, h4, not_not.mp h5, h6, h7⟩
  · rintro ⟨rfl, h1, h2, h3, h4, h5, h6, h7⟩
    simp only [validar_datos]
    rw [if_neg h1, if_neg (not_not_intro h2), if_neg h3, if_neg h4,
      if_neg (not_not_intro h5), if_neg h6, if_neg h7]

theorem validar_error_eq {texto clave : List Char} {e : PyErr}
    (h : validar_datos texto clave = .error e) : e = .typeError := by
  simp only [validar_datos] at h
  split_ifs at h with h1 h2
  rcases hc : codigosDe (detectar_invisibles clave) with _ | c <;> rw [hc] at h
  · injection h with h3
    exact h3.symm
  · simp at h

/-! ### Reduction of `cifrar_vigenere` and `descifrar_vigenere` -/

theorem cifrar_eq_ok_of_valid {texto clave m : List Char}
    (h : validar_datos texto clave = .ok (true, m)) :
    ∃ ka, ajustar_clave (limpiar_texto texto) clave = .ok ka ∧
      ka.length = (limpiar_texto texto).length ∧ (∀ b ∈ ka, b ∈ ascii_uppercase) ∧
      cifrar_vigenere texto clave = .ok (List.zipWith cifrar_char (limpiar_texto texto) ka) := by
  have hv := ((validar_eq_ok_true_iff texto clave m).mp h).2
  obtain ⟨ka, hka, hlen, hmem, _⟩ := @ajustar_spec (limpiar_texto texto) clave hv.2.2.1
  exact ⟨ka, hka, hlen, hmem, by simp [cifrar_vigenere, h, hka]⟩

theorem descifrar_eq_ok_of_valid {texto clave m : List Char}
    (h : validar_datos texto clave = .ok (true, m)) :
    ∃ ka, ajustar_clave (limpiar_texto texto) clave = .ok ka ∧
      ka.length = (limpiar_texto texto).length ∧ (∀ b ∈ ka, b ∈ ascii_uppercase) ∧
      descifrar_vigenere texto clave =
        .ok (List.zipWith descifrar_char (limpiar_texto texto) ka) := by
  have hv := ((validar_eq_ok_true_iff texto clave m).mp h).2
  obtain ⟨ka, hka, hlen, hmem, _⟩ := @ajustar_spec (limpiar_texto texto) clave hv.2.2.1
  exact ⟨ka, hka, hlen, hmem, by simp [descifrar_vigenere, h, hka]⟩

theorem cifrar_eq_error_of_invalid {texto clave msg : List Char}
    (h : validar_datos texto clave = .ok (false, msg)) :
    cifrar_vigenere texto clave = .error (.valueError msg) := by
  simp [cifrar_vigenere, h]

theorem descifrar_eq_error_of_invalid {texto clave msg : List Char}
    (h : validar_datos texto clave = .ok (false, msg)) :
    descifrar_vigenere texto clave = .error (.valueError msg) := by
  simp [descifrar_vigenere, h]

theorem cifrar_eq_error_of_error {texto clave : List Char} {e : PyErr}
    (h : validar_datos texto clave = .error e) :
    cifrar_vigenere texto clave = .error e := by
  simp [cifrar_vigenere, h]

theorem descifrar_eq_error_of_error {texto clave : List Char} {e : PyErr}
    (h : validar_datos texto clave = .error e) :
    descifrar_vigenere texto clave = .error e := by
  simp [descifrar_vigenere, h]

theorem cifrado_mem_ascii {texto ka : List Char}
    (hmem : ∀ b ∈ ka, b ∈ ascii_uppercase) :
    ∀ c ∈ List.zipWith cifrar_char (limpiar_texto texto) ka, c ∈ ascii_uppercase := by
  intro c hc
  obtain ⟨a, haMem, b, hbMem, rfl⟩ := exists_of_mem_zipWith hc
  exact cifrar_char_mem_ascii a (mem_ascii_of_mem_limpiar haMem) b (hmem b hbMem)

theorem validar_cifrado_ok {texto clave m : List Char}
    (h : validar_datos texto clave = .ok (true, m))
    {E : List Char} (hEaz : ∀ c ∈ E, c ∈ ascii_uppercase) (hEne : E ≠ []) :
    validar_datos E clave = .ok (true, []) := by
  have hv := ((validar_eq_ok_true_iff texto clave m).mp h).2
  apply (validar_eq_ok_true_iff E clave []).mpr
  refine ⟨rfl, hv.1, hv.2.1, hv.2.2.1, hv.2.2.2.1, hv.2.2.2.2.1, ?_, ?_⟩
  · rintro (h0 | h0)
    · exact hEne h0
    · rw [pyStrip_eq_self (fun c hc => ascii_not_whitespace c (hEaz c hc))] at h0
      exact hEne h0
  · rw [limpiar_eq_self hEaz]
    exact hEne

/-! ### Claim theorems -/

/-- Claim C1: for every text `t` and key `k` such that validation succeeds,
decrypting the encryption of `t` with `k` yields `normalize(t)`
(`limpiar_texto t`). -/
theorem c1_round_trip (texto clave m : List Char)
    (h : validar_datos texto clave = .ok (true, m)) :
    (cifrar_vigenere texto clave).bind (fun cifrado => descifrar_vigenere cifrado clave) =
      .ok (limpiar_texto texto) := by
  obtain ⟨ka, hka, hlen, hmem, hok⟩ := cifrar_eq_ok_of_valid h
  have hv := ((validar_eq_ok_true_iff texto clave m).mp h).2
  have hTLne : limpiar_texto texto ≠ [] := hv.2.2.2.2.2.2
  have hEaz := @cifrado_mem_ascii texto ka hmem
  have hElen : (List.zipWith cifrar_char (limpiar_texto texto) ka).length =
      (limpiar_texto texto).length := by
    rw [List.length_zipWith, hlen, min_self]
  have hEne : List.zipWith cifrar_char (limpiar_texto texto) ka ≠ [] := by
    intro h0
    apply hTLne
    apply List.length_eq_zero.mp
    rw [← hElen, h0, List.length_nil]
  have hvE := validar_cifrado_ok h hEaz hEne
  obtain ⟨ka2, hka2, _, _, hok2⟩ := descifrar_eq_ok_of_valid hvE
  have hLE : limpiar_texto (List.zipWith cifrar_char (limpiar_texto texto) ka) =
      List.zipWith cifrar_char (limpiar_texto texto) ka := limpiar_eq_self hEaz
  rw [hLE] at hka2 hok2
  have hkaE : ajustar_clave (List.zipWith cifrar_char (limpiar_texto texto) ka) clave =
      .ok ka := by
    rw [ajustar_congr_length hElen]
    exact hka
  rw [hkaE] at hka2
  injection hka2 with hka3
  rw [hok]
  show descifrar_vigenere (List.zipWith cifrar_char (limpiar_texto texto) ka) clave =
    .ok (limpiar_texto texto)
  rw [hok2, ← hka3]
  exact congrArg Except.ok
    (zipWith_descifrar_cifrar (le_of_eq hlen.symm)
      (fun a ha => mem_ascii_of_mem_limpiar ha) hmem)

/-- Witness for C1: the round trip evaluated at the demo text and key. -/
theorem c1_round_trip_witness :
    (cifrar_vigenere "ATAQUE AL AMANECER".data "CLAVE".data).bind
      (fun cifrado => descifrar_vigenere cifrado "CLAVE".data) =
      .ok (limpiar_texto "ATAQUE AL AMANECER".data) :=
  c1_round_trip _ _ [] (by decide)

/-- Claim C2: for every validated pair, `cifrar_vigenere` and
`descifrar_vigenere` both return a string that contains only A-Z characters
and whose length equals the length of the normalized input text. -/
theorem c2_output_alphabet_and_length (texto clave m : List Char)
    (h : validar_datos texto clave = .ok (true, m)) :
    (∃ s, cifrar_vigenere texto clave = .ok s ∧
      s.length = (limpiar_texto texto).length ∧ ∀ c ∈ s, c ∈ ascii_uppercase) ∧
    (∃ s, descifrar_vigenere texto clave = .ok s ∧
      s.length = (limpiar_texto texto).length ∧ ∀ c ∈ s, c ∈ ascii_uppercase) := by
  obtain ⟨ka, hka, hlen, hmem, hok⟩ := cifrar_eq_ok_of_valid h
  obtain ⟨ka2, hka2, hlen2, hmem2, hok2⟩ := descifrar_eq_ok_of_valid h
  constructor
  · exact ⟨_, hok, by rw [List.length_zipWith, hlen, min_self], cifrado_mem_ascii hmem⟩
  · refine ⟨_, hok2, by rw [List.length_zipWith, hlen2, min_self], ?_⟩
    intro c hc
    obtain ⟨a, haMem, b, hbMem, rfl⟩ := exists_of_mem_zipWith hc
    exact descifrar_char_mem_ascii a (mem_ascii_of_mem_limpiar haMem) b (hmem2 b hbMem)

/-- Witness for C2 at the demo text and key. -/
theorem c2_output_alphabet_and_length_witness :
    (∃ s, cifrar_vigenere "ATAQUE AL AMANECER".data "CLAVE".data = .ok s ∧
      s.length = (limpiar_texto "ATAQUE AL AMANECER".data).length ∧
      ∀ c ∈ s, c ∈ ascii_uppercase) ∧
    (∃ s, descifrar_vigenere "ATAQUE AL AMANECER".data "CLAVE".data = .ok s ∧
      s.length = (limpiar_texto "ATAQUE AL AMANECER".data).length ∧
      ∀ c ∈ s, c ∈ ascii_uppercase) :=
  c2_output_alphabet_and_length _ _ [] (by decide)

/-- Claim C7: for every validated pair, the string returned by
`cifrar_vigenere` carries at position `i` exactly
`chr((ord(text[i]) - ord('A') + ord(key[i]) - ord('A')) mod 26 + ord('A'))`,
where `text` is the normalized text and `key` the expanded key, and
`descifrar_vigenere` carries the symmetric formula with the subtraction
taken modulo 26. -/
theorem c7_per_position_formula (texto clave m : List Char)
    (h : validar_datos texto clave = .ok (true, m)) :
    (∃ s ka, cifrar_vigenere texto clave = .ok s ∧
      ajustar_clave (limpiar_texto texto) clave = .ok ka ∧
      ∀ (i : Nat) (t k : Char), (limpiar_texto texto)[i]? = some t → ka[i]? = some k →
        s[i]? = some (Char.ofNat ((((t.toNat : Int) - ('A'.toNat : Int) +
          ((k.toNat : Int) - ('A'.toNat : Int))) % 26 + ('A'.toNat : Int)).toNat))) ∧
    (∃ s ka, descifrar_vigenere texto clave = .ok s ∧
      ajustar_clave (limpiar_texto texto) clave = .ok ka ∧
      ∀ (i : Nat) (c k : Char), (limpiar_texto texto)[i]? = some c → ka[i]? = some k →
        s[i]? = some (Char.ofNat ((((c.toNat : Int) - ('A'.toNat : Int) -
          ((k.toNat : Int) - ('A'.toNat : Int))) % 26 + ('A'.toNat : Int)).toNat))) := by
  obtain ⟨ka, hka, hlen, hmem, hok⟩ := cifrar_eq_ok_of_valid h
  obtain ⟨ka2, hka2, hlen2, hmem2, hok2⟩ := descifrar_eq_ok_of_valid h
  constructor
  · refine ⟨_, ka, hok, hka, ?_⟩
    intro i t k ht hk
    rw [List.getElem?_zipWith, ht, hk]
    rfl
  · refine ⟨_, ka2, hok2, hka2, ?_⟩
    intro i c k hc hk
    rw [List.getElem?_zipWith, hc, hk]
    rfl

/-- Witness for C7 at the demo text and key. -/
theorem c7_per_position_formula_witness :
    (∃ s ka, cifrar_vigenere "ATAQUE AL AMANECER".data "CLAVE".data = .ok s ∧
      ajustar_clave (limpiar_texto "ATAQUE AL AMANECER".data) "CLAVE".data = .ok ka ∧
      ∀ (i : Nat) (t k : Char),
        (limpiar_texto "ATAQUE AL AMANECER".data)[i]? = some t → ka[i]? = some k →
        s[i]? = some (Char.ofNat ((((t.toNat : Int) - ('A'.toNat : Int) +
          ((k.toNat : Int) - ('A'.toNat : Int))) % 26 + ('A'.toNat : Int)).toNat))) ∧
    (∃ s ka, descifrar_vigenere "ATAQUE AL AMANECER".data "CLAVE".data = .ok s ∧
      ajustar_clave (limpiar_texto "ATAQUE AL AMANECER".data) "CLAVE".data = .ok ka ∧
      ∀ (i : Nat) (c k : Char),
        (limpiar_texto "ATAQUE AL AMANECER".data)[i]? = some c → ka[i]? = some k →
        s[i]? = some (Char.ofNat ((((c.toNat : Int) - ('A'.toNat : Int) -
          ((k.toNat : Int) - ('A'.toNat : Int))) % 26 + ('A'.toNat : Int)).toNat))) :=
  c7_per_position_formula _ _ [] (by decide)

/-- Claim C10: for every validated pair, `descifrar_vigenere` returns a
non-empty all-A-Z string, so the likely-wrong-key warning condition is
false and the warning branch is unreachable for validated input. -/
theorem c10_no_wrong_key_warning (texto clave m : List Char)
    (h : validar_datos texto clave = .ok (true, m)) :
    ∃ s, descifrar_vigenere texto clave = .ok s ∧ s ≠ [] ∧
      (∀ c ∈ s, c ∈ ascii_uppercase) ∧ aviso_posible_clave_incorrecta s = false := by
  have hv := ((validar_eq_ok_true_iff texto clave m).mp h).2
  obtain ⟨ka, hka, hlen, hmem, hok⟩ := descifrar_eq_ok_of_valid h
  have haz : ∀ c ∈ List.zipWith descifrar_char (limpiar_texto texto) ka,
      c ∈ ascii_uppercase := by
    intro c hc
    obtain ⟨a, haMem, b, hbMem, rfl⟩ := exists_of_mem_zipWith hc
    exact descifrar_char_mem_ascii a (mem_ascii_of_mem_limpiar haMem) b (hmem b hbMem)
  have hne : List.zipWith descifrar_char (limpiar_texto texto) ka ≠ [] := by
    intro h0
    apply hv.2.2.2.2.2.2
    apply List.length_eq_zero.mp
    have := congrArg List.length h0
    rw [List.length_zipWith, hlen, min_self] at this
    exact this
  refine ⟨_, hok, hne, haz, ?_⟩
  obtain ⟨x, hx⟩ := List.exists_mem_of_ne_nil _ hne
  unfold aviso_posible_clave_incorrecta
  rw [Bool.not_eq_false']
  exact List.any_eq_true.mpr ⟨x, hx, decide_eq_true (haz x hx)⟩

/-- Witness for C10 at the demo text and key. -/
theorem c10_no_wrong_key_warning_witness :
    ∃ s, descifrar_vigenere "ATAQUE AL AMANECER".data "CLAVE".data = .ok s ∧ s ≠ [] ∧
      (∀ c ∈ s, c ∈ ascii_uppercase) ∧ aviso_posible_clave_incorrecta s = false :=
  c10_no_wrong_key_warning _ _ [] (by decide)

/-- Claim C9: `cifrar_vigenere` (resp. `descifrar_vigenere`) raises
`ValueError msg` exactly when `validar_datos` returns `(False, msg)`, with
the validator's message carried verbatim, and returns a string whenever
validation succeeds. -/
theorem c9_validation_error_propagation (texto clave : List Char) :
    (∀ msg, validar_datos texto clave = .ok (false, msg) ↔
      cifrar_vigenere texto clave = .error (.valueError msg)) ∧
    (∀ msg, validar_datos texto clave = .ok (false, msg) ↔
      descifrar_vigenere texto clave = .error (.valueError msg)) ∧
    ∀ m, validar_datos texto clave = .ok (true, m) →
      (∃ s, cifrar_vigenere texto clave = .ok s) ∧
      ∃ s, descifrar_vigenere texto clave = .ok s := by
  refine ⟨fun msg => ⟨cifrar_eq_error_of_invalid, ?_⟩,
    fun msg => ⟨descifrar_eq_error_of_invalid, ?_⟩, fun m hm => ?_⟩
  · intro h
    rcases hvd : validar_datos texto clave with e | ⟨b, m⟩
    · rw [validar_error_eq hvd] at hvd
      rw [cifrar_eq_error_of_error hvd] at h
      simp at h
    · cases b
      · rw [cifrar_eq_error_of_invalid hvd] at h
        injection h with h2
        injection h2 with h3
        rw [h3]
      · obtain ⟨ka, _, _, _, hok⟩ := cifrar_eq_ok_of_valid hvd
        rw [hok] at h
        simp at h
  · intro h
    rcases hvd : validar_datos texto clave with e | ⟨b, m⟩
    · rw [validar_error_eq hvd] at hvd
      rw [descifrar_eq_error_of_error hvd] at h
      simp at h
    · cases b
      · rw [descifrar_eq_error_of_invalid hvd] at h
        injection h with h2
        injection h2 with h3
        rw [h3]
      · obtain ⟨ka, _, _, _, hok⟩ := descifrar_eq_ok_of_valid hvd
        rw [hok] at h
        simp at h
  · obtain ⟨ka, _, _, _, hok⟩ := cifrar_eq_ok_of_valid hm
    obtain ⟨ka2, _, _, _, hok2⟩ := descifrar_eq_ok_of_valid hm
    exact ⟨⟨_, hok⟩, _, hok2⟩

/-- Witness for C9: a too-short key makes `cifrar_vigenere` raise the
validator's message. -/
theorem c9_validation_error_propagation_witness :
    cifrar_vigenere "HOLA".data "AB".data = .error (.valueError mensajeClaveCorta) :=
  ((c9_validation_error_propagation "HOLA".data "AB".data).1 mensajeClaveCorta).mp
    (by decide)

/-- Claim C6: `ajustar_clave` fails with `ValueError` when the normalized
key is empty; otherwise it returns the normalized key repeated and cut to
the text length, so position `i` holds character `i mod len` of the
normalized key, the empty text gives the empty string, and the two spec
examples hold. -/
theorem c6_expand (texto clave : List Char) :
    (normalizar_clave clave = [] →
      ajustar_clave texto clave = .error (.valueError mensajeClaveVacia)) ∧
    (normalizar_clave clave ≠ [] → ∃ r, ajustar_clave texto clave = .ok r ∧
      r.length = texto.length ∧ (texto = [] → r = []) ∧
      ∀ i, i < texto.length →
        r[i]? = (normalizar_clave clave)[i % (normalizar_clave clave).length]?) ∧
    ajustar_clave "HOLA".data "A".data = .ok "AAAA".data ∧
    ajustar_clave "HOLAMUNDO".data "AB".data = .ok "ABABABABA".data := by
  refine ⟨fun h => by simp [ajustar_clave, h], fun h => ?_, by decide, by decide⟩
  obtain ⟨r, hr, hlen, _, hidx⟩ := @ajustar_spec texto clave h
  refine ⟨r, hr, hlen, fun h0 => List.length_eq_zero.mp ?_, hidx⟩
  rw [hlen, h0]
  rfl

/-- Witness for C6: the expansion of "A" over "HOLA". -/
theorem c6_expand_witness :
    ∃ r, ajustar_clave "HOLA".data "A".data = .ok r ∧
      r.length = ("HOLA".data).length ∧ ("HOLA".data = [] → r = []) ∧
      ∀ i, i < ("HOLA".data).length →
        r[i]? = (normalizar_clave "A".data)[i % (normalizar_clave "A".data).length]? :=
  (c6_expand "HOLA".data "A".data).2.1 (by decide)

/-- Claim C8: `limpiar_texto` is idempotent, total, produces only A-Z
characters, and returns the empty string on input with no alphabetic
content. -/
theorem c8_normalize_idempotent_alphabet (t : List Char) :
    limpiar_texto (limpiar_texto t) = limpiar_texto t ∧
    (∀ c ∈ limpiar_texto t, c ∈ ascii_uppercase) ∧
    ((∀ c ∈ t, pyUpper c ∉ ascii_uppercase) → limpiar_texto t = []) := by
  refine ⟨limpiar_eq_self (fun c hc => mem_ascii_of_mem_limpiar hc),
    fun c hc => mem_ascii_of_mem_limpiar hc, fun h => ?_⟩
  unfold limpiar_texto
  apply List.filter_eq_nil_iff.mpr
  intro a ha
  obtain ⟨b, hb, rfl⟩ := List.mem_map.mp ha
  simpa using h b hb

/-- Witness for C8: a digits-and-punctuation input normalizes to the empty
string. -/
theorem c8_normalize_idempotent_alphabet_witness :
    limpiar_texto "123 456!".data = [] :=
  (c8_normalize_idempotent_alphabet "123 456!".data).2.2 (by decide)

/-- Claim C3: the seven validation checks run in the stated order with the
stated reasons ("AB" fails the minimum-length check, "AB12CD" the
invalid-characters check), but a key containing an invisible character
makes `validar_datos` raise a `TypeError` instead of returning the check-2
reason, because `ord` is applied to the `repr` strings of
`detectar_invisibles`. -/
theorem c3_validation_order :
    validar_datos "HOLA".data "".data = .ok (false, mensajeClaveVacia) ∧
    validar_datos "HOLA".data "   ".data = .ok (false, mensajeClaveVacia) ∧
    validar_datos "HOLA".data "AB".data = .ok (false, mensajeClaveCorta) ∧
    validar_datos "HOLA".data "AB12CD".data =
      .ok (false, mensajeClaveInvalida "AB12CD".data "ABCD".data) ∧
    validar_datos "".data "CLAVE".data = .ok (false, mensajeTextoVacio) ∧
    validar_datos "123 456".data "CLAVE".data = .ok (false, mensajeTextoSinLetras) ∧
    validar_datos "HOLA".data "CLAVE".data = .ok (true, []) ∧
    validar_datos "HOLA".data ("CLAVE".data ++ [Char.ofNat 0x200C]) = .error .typeError := by
  decide

/-- Claim C4: a key containing U+200B does not produce the promised
Invalid result with `U+XXXX` codepoints; `detectar_invisibles` returns
`repr` strings of length 8, `ord` on them is a `TypeError`, and both
`validar_datos` and `cifrar_vigenere` raise it. -/
theorem c4_invisible_key_typeerror :
    detectar_invisibles ("ABC".data ++ [Char.ofNat 0x200B]) =
      [pyRepr (Char.ofNat 0x200B)] ∧
    pyOrd (pyRepr (Char.ofNat 0x200B)) = none ∧
    validar_datos "HOLA".data ("ABC".data ++ [Char.ofNat 0x200B]) = .error .typeError ∧
    cifrar_vigenere "HOLA".data ("ABC".data ++ [Char.ofNat 0x200B]) = .error .typeError := by
  decide

/-- Counterexample for C5: the normalized demo text does not have length
17 (it is "ATAQUEALAMANECER", of length 16). -/
theorem c5_counterexample :
    ¬(limpiar_texto "ATAQUE AL AMANECER".data = "ATAQUEALAMANECER".data ∧
      (limpiar_texto "ATAQUE AL AMANECER".data).length = 17) := by
  decide

/-- Claim C5 (amended): `limpiar_texto "ATAQUE AL AMANECER"` is
"ATAQUEALAMANECER" of length 16, its encryption under "CLAVE" is the
fixed string "CEALYGLLVQCYEXIT", and decrypting that string with "CLAVE"
reproduces "ATAQUEALAMANECER". -/
theorem c5_demo_values :
    limpiar_texto "ATAQUE AL AMANECER".data = "ATAQUEALAMANECER".data ∧
    (limpiar_texto "ATAQUE AL AMANECER".data).length = 16 ∧
    cifrar_vigenere "ATAQUEALAMANECER".data "CLAVE".data = .ok "CEALYGLLVQCYEXIT".data ∧
    descifrar_vigenere "CEALYGLLVQCYEXIT".data "CLAVE".data = .ok "ATAQUEALAMANECER".data := by
  decide

end Vigenere
